import Mathlib

/-!
Verification development for the `yfdownloader` repository, centred on
`src/core/downloader.py` (`ParallelDownloader`).

Shallow embedding conventions:
* Python strings are Lean `String`; `str.split(',')` is `String.splitOn ","`
  (both return a non-empty list and keep empty fields); `str.strip()` is
  `String.trim` (both remove surrounding whitespace).
* Python `int` parameters are `ℤ`, `float` durations are `ℚ`.
* The yfinance call `yf.Ticker(sym).history(...)` is an external collaborator;
  it is abstracted as an oracle `FetchOracle` giving, for a ticker symbol and a
  0-indexed attempt number, either a raw table or a raised exception.  The
  serialisation calls `to_csv` / `to_parquet` / `to_json` are abstracted as a
  `WriteOracle` from the file name and table to success or a raised exception.
* Code that catches every exception is embedded as a total function; code whose
  exceptions escape to the caller returns `Except String _`.
-/

namespace YFDownloader

/-- One raw row of the provider's history table, before normalisation.
`date` is a calendar day `(year, month, day)`; prices are exact rationals. -/
structure RawRow where
  year : Nat
  month : Nat
  day : Nat
  openPrice : ℚ
  highPrice : ℚ
  lowPrice : ℚ
  closePrice : ℚ
  volume : ℤ
  dividends : ℚ
  stockSplits : ℚ
  deriving DecidableEq, Repr

/-- The raw table returned by `stock.history(...)`. -/
structure RawTable where
  rows : List RawRow
  deriving DecidableEq, Repr

/-- One normalised row, after the renaming / rounding / date-formatting block of
`download_ticker` (src/core/downloader.py lines 98-122). -/
structure NormRow where
  date : String
  openPrice : ℚ
  highPrice : ℚ
  lowPrice : ℚ
  closePrice : ℚ
  volume : ℤ
  dividends : ℚ
  stockSplits : ℚ
  ticker : String
  deriving DecidableEq, Repr

/-- A normalised table (the `pd.DataFrame` that `download_ticker` returns). -/
structure Table where
  rows : List NormRow
  deriving DecidableEq, Repr

/-- Result of one call to the fetch collaborator: a table, or a raised
exception carrying a message. -/
inductive FetchResult where
  | table (data : RawTable)
  | error (msg : String)
  deriving DecidableEq, Repr

/-- `true` iff the fetch attempt raised. -/
def FetchResult.isError : FetchResult → Bool
  | .table _ => false
  | .error _ => true

/-- Oracle for `yf.Ticker(ticker_symbol).history(...)`: given the ticker symbol
and the 0-indexed attempt number, the outcome of that attempt.  The date range
or period and the adjustment flag are fixed for a run, so the oracle closes
over them. -/
def FetchOracle := String → Nat → FetchResult

/-- Oracle for the serialisation step (`data.to_csv(filepath)` etc.): given the
file name and the table, success or a raised `IOError`. -/
def WriteOracle := String → Table → Except String Unit

/-- Python `str.split(sep)` for a one-character separator, over the string's
characters: split at every occurrence, keep empty fields.  The result is
always non-empty, as in Python. -/
def pySplit (sep : Char) : List Char → List (List Char)
  | [] => [[]]
  | c :: cs =>
    match pySplit sep cs with
    | [] => [[c]]
    | h :: t => if c = sep then [] :: h :: t else (c :: h) :: t

/-- Python `str.strip()`: remove leading and trailing whitespace. -/
def pyStrip (cs : List Char) : List Char :=
  ((cs.dropWhile Char.isWhitespace).reverse.dropWhile Char.isWhitespace).reverse

/-- `ticker.split(sep)[0].strip()` with `sep` the comma (line 70 of the
source): the symbol part of a `"SYMBOL,Name"` entry, whitespace-stripped. -/
def symbolOf (ticker : String) : String :=
  String.mk (pyStrip ((pySplit ',' ticker.data).headI))

/-- The engine configuration stored by `ParallelDownloader.__init__`
(src/core/downloader.py lines 24-44).  The Python constructor performs no
range validation; it merely stores the four fields and builds
`asyncio.Semaphore(max_concurrent)`. -/
structure ParallelDownloader where
  max_concurrent : ℤ
  retry_attempts : ℤ
  retry_delay : ℚ
  timeout : ℤ
  deriving DecidableEq, Repr

/-- `ParallelDownloader(max_concurrent, retry_attempts, retry_delay, timeout)`.
The only failure path at construction time is `asyncio.Semaphore(value)`,
which raises `ValueError` exactly when `value < 0`; no other parameter is
inspected. -/
def ParallelDownloader.init (max_concurrent : ℤ := 50) (retry_attempts : ℤ := 3)
    (retry_delay : ℚ := 1) (timeout : ℤ := 30) : Except String ParallelDownloader :=
  if max_concurrent < 0 then
    .error "ValueError: Semaphore initial value must be >= 0"
  else
    .ok { max_concurrent := max_concurrent, retry_attempts := retry_attempts,
          retry_delay := retry_delay, timeout := timeout }

/-- Zero-pad a month or day number to two digits (for `strftime`). -/
def pad2 (n : Nat) : String :=
  if n < 10 then "0" ++ toString n else toString n

/-- `pd.to_datetime(...).dt.strftime(%Y-%m-%d)` on a calendar day. -/
def formatDate (y m d : Nat) : String :=
  toString y ++ "-" ++ pad2 m ++ "-" ++ pad2 d

/-- `round(x, 4)` as applied to the price columns.  (pandas breaks exact ties
to even; no property below depends on tie behaviour.) -/
def round4 (x : ℚ) : ℚ := (round (x * 10000) : ℤ) / 10000

/-- The normalisation block of `download_ticker` on one row: attach the ticker
symbol, round the four price columns to 4 decimals, format the date without a
time component, keep volume / dividends / stock splits. -/
def normalizeRow (ticker_symbol : String) (r : RawRow) : NormRow :=
  { date := formatDate r.year r.month r.day
    openPrice := round4 r.openPrice
    highPrice := round4 r.highPrice
    lowPrice := round4 r.lowPrice
    closePrice := round4 r.closePrice
    volume := r.volume
    dividends := r.dividends
    stockSplits := r.stockSplits
    ticker := ticker_symbol }

/-- Normalisation of a whole raw table (lines 98-122 of the source). -/
def normalize (ticker_symbol : String) (t : RawTable) : Table :=
  ⟨t.rows.map (normalizeRow ticker_symbol)⟩

/-- Observable outcome of one `download_ticker` call: the returned value
(`None` embedded as `none`), the number of fetch attempts actually made, and
the list of backoff sleeps performed, in order. -/
structure DownloadResult where
  result : Option Table
  attempts : Nat
  sleeps : List ℚ
  deriving DecidableEq, Repr

/-- The body of `for attempt in range(self.retry_attempts)` in
`download_ticker` (lines 74-133), run over the list of remaining attempt
indices.  `rest.isEmpty` embeds the test `attempt < self.retry_attempts - 1`
(the current attempt is the last one iff no indices remain).  Falling off the
loop (empty index list, i.e. `range` of a non-positive count) returns `None`
with no attempt made, as in Python. -/
def downloadAttempts (retry_delay : ℚ) (ticker_symbol : String)
    (fetch : FetchOracle) : List Nat → DownloadResult
  | [] => ⟨none, 0, []⟩
  | attempt :: rest =>
    match fetch ticker_symbol attempt with
    | .table data =>
      if data.rows.isEmpty then
        -- `if data.empty: return None` (lines 94-96)
        ⟨none, 1, []⟩
      else
        ⟨some (normalize ticker_symbol data), 1, []⟩
    | .error _ =>
      if rest.isEmpty then
        -- attempts exhausted: `return None` (lines 131-133)
        ⟨none, 1, []⟩
      else
        -- `await asyncio.sleep(self.retry_delay * (2 ** attempt))` then retry
        let r := downloadAttempts retry_delay ticker_symbol fetch rest
        ⟨r.result, r.attempts + 1, retry_delay * 2 ^ attempt :: r.sleeps⟩

/-- `ParallelDownloader.download_ticker` (lines 46-133).  The date range,
period and adjustment flag are passed through to the fetch collaborator, which
the oracle closes over, so they are unused here beyond signature fidelity.
The `async with self.semaphore` admission gate is modelled separately as a
transition system (`SemState` below); this function captures the sequential
retry behaviour inside the gate. -/
def ParallelDownloader.download_ticker (self : ParallelDownloader) (ticker : String)
    (_start_date _end_date : String) (_period : Option String) (_auto_adjust : Bool)
    (fetch : FetchOracle) : DownloadResult :=
  let ticker_symbol := symbolOf ticker
  downloadAttempts self.retry_delay ticker_symbol fetch
    (List.range self.retry_attempts.toNat)

/-- The dictionary returned by `download_tickers` (lines 211-217). -/
structure Report where
  total : Nat
  successful : Nat
  failed : Nat
  successful_tickers : List String
  failed_tickers : List String
  deriving DecidableEq, Repr

/-- Python truthiness of the optional `period` argument (`if period:`):
`None` and the empty string are falsy. -/
def periodTruthy : Option String → Bool
  | none => false
  | some p => !(p == "")

/-- The ticker symbol used for the output file name (line 174):
`ticker.split(sep)[0].strip() if sep in ticker else ticker`, with `sep` the
comma.  Note: unlike line 70, a comma-free ticker is NOT stripped here. -/
def filenameSymbol (ticker : String) : String :=
  if ticker.data.contains ',' then symbolOf ticker else ticker

/-- The output file name built at lines 186-190:
`f"{ticker_symbol}_{period}_{adjustment_suffix}.{output_format}"` when `period`
is truthy, else
`f"{ticker_symbol}_{start_date}_{end_date}_{adjustment_suffix}.{output_format}"`,
with `adjustment_suffix = "adj" if auto_adjust else "raw"`. -/
def mkFilename (ticker_symbol start_date end_date : String) (period : Option String)
    (auto_adjust : Bool) (output_format : String) : String :=
  let adjustment_suffix := if auto_adjust then "adj" else "raw"
  if periodTruthy period then
    ticker_symbol ++ "_" ++ period.getD "" ++ "_" ++ adjustment_suffix ++ "." ++ output_format
  else
    ticker_symbol ++ "_" ++ start_date ++ "_" ++ end_date ++ "_" ++ adjustment_suffix
      ++ "." ++ output_format

/-- The body of the per-ticker `try/except/finally` block of `download_tickers`
(lines 181-207): await the task; if the result is a non-empty table, build the
file name and serialise it (only the three known formats reach a write call);
an exception from the write is caught and demotes the ticker to failed.
Returns whether the ticker is appended to `successful` (`true`) or `failed`
(`false`), together with the file name passed to the writer, when a write was
attempted. -/
def ParallelDownloader.processTicker (self : ParallelDownloader)
    (start_date end_date output_format : String) (period : Option String)
    (auto_adjust : Bool) (fetch : FetchOracle) (write : WriteOracle)
    (ticker : String) : Bool × Option String :=
  let ticker_symbol := filenameSymbol ticker
  let dl := self.download_ticker ticker start_date end_date period auto_adjust fetch
  match dl.result with
  | some data =>
    if !data.rows.isEmpty then
      let filename := mkFilename ticker_symbol start_date end_date period
        auto_adjust output_format
      if output_format = "csv" || output_format = "parquet" || output_format = "json" then
        match write filename data with
        | .ok _ => (true, some filename)
        | .error _ => (false, some filename)
      else
        -- unknown format: no serialisation call is made, yet the ticker is
        -- still appended to `successful` (lines 193-200)
        (true, none)
    else
      (false, none)
  | none => (false, none)

/-- `true` iff `download_tickers` records `ticker` as successful. -/
def ParallelDownloader.tickerSucceeds (self : ParallelDownloader)
    (start_date end_date output_format : String) (period : Option String)
    (auto_adjust : Bool) (fetch : FetchOracle) (write : WriteOracle)
    (ticker : String) : Bool :=
  (self.processTicker start_date end_date output_format period auto_adjust
    fetch write ticker).1

/-- `ParallelDownloader.download_tickers` (lines 135-217).  One task is created
per ticker (no deduplication, no reordering); the tasks are then awaited
sequentially, in input order, each under the `try/except` embedded by
`processTicker`; every ticker is appended to exactly one of the two lists.
All per-ticker exceptions are caught, so the embedding is a total function
into `Report`. -/
def ParallelDownloader.download_tickers (self : ParallelDownloader)
    (tickers : List String) (start_date end_date : String)
    (_output_dir : String := "data/downloads") (output_format : String := "csv")
    (period : Option String := none) (auto_adjust : Bool := true)
    (fetch : FetchOracle := fun _ _ => .error "") (write : WriteOracle := fun _ _ => .ok ()) :
    Report :=
  let step := fun (acc : List String × List String) (ticker : String) =>
    if self.tickerSucceeds start_date end_date output_format period auto_adjust
        fetch write ticker then
      (acc.1 ++ [ticker], acc.2)
    else
      (acc.1, acc.2 ++ [ticker])
  let res := tickers.foldl step ([], [])
  { total := tickers.length
    successful := res.1.length
    failed := res.2.length
    successful_tickers := res.1
    failed_tickers := res.2 }

/-! ### The admission gate (`asyncio.Semaphore`)

`download_ticker` wraps its whole retry loop in `async with self.semaphore:`
(line 73): a task acquires one slot before its first attempt, keeps it through
every attempt and every backoff sleep, and releases it when the block exits
(final success or exhaustion).  We model the run as a transition system over
the per-task phases and the semaphore counter; the scheduler may interleave
steps of different tasks arbitrarily (an over-approximation of any event-loop
schedule, including the actual sequential one). -/

/-- Phase of one per-ticker task.  `active k` means the task holds a semaphore
slot and has performed `k` steps (fetch attempts or backoff sleeps) of its
retry loop. -/
inductive Phase where
  | waiting
  | active (steps : Nat)
  | finished
  deriving DecidableEq, Repr

/-- `true` iff the task currently holds a semaphore slot. -/
def Phase.isActive : Phase → Bool
  | .active _ => true
  | _ => false

/-- Global state of a run: the phase of each task and the semaphore's
remaining capacity. -/
structure SemState where
  phases : List Phase
  avail : Nat
  deriving DecidableEq, Repr

/-- Number of tasks currently holding a semaphore slot, i.e. inside their
`async with self.semaphore:` block (fetching or sleeping). -/
def SemState.countActive (s : SemState) : Nat :=
  s.phases.countP (·.isActive)

/-- Initial state of a run of `download_tickers` with `n` tickers: every task
waiting, the semaphore at its full capacity `max_concurrent`. -/
def initState (max_concurrent : Nat) (n : Nat) : SemState :=
  { phases := List.replicate n Phase.waiting, avail := max_concurrent }

/-- One scheduler step.  `acquire` embeds entering `async with self.semaphore:`
(possible only when a slot is free, and before the task's first attempt);
`work` embeds one fetch attempt or one backoff sleep, performed while holding
the slot; `release` embeds leaving the block after final success or
exhaustion, returning the slot. -/
inductive SemStep : SemState → SemState → Prop where
  | acquire (phases : List Phase) (avail : Nat) (i : Nat)
      (h : phases.get? i = some .waiting) (ha : 0 < avail) :
      SemStep ⟨phases, avail⟩ ⟨phases.set i (.active 0), avail - 1⟩
  | work (phases : List Phase) (avail : Nat) (i k : Nat)
      (h : phases.get? i = some (.active k)) :
      SemStep ⟨phases, avail⟩ ⟨phases.set i (.active (k + 1)), avail⟩
  | release (phases : List Phase) (avail : Nat) (i k : Nat)
      (h : phases.get? i = some (.active k)) :
      SemStep ⟨phases, avail⟩ ⟨phases.set i .finished, avail + 1⟩

/-- States reachable from `init` by scheduler steps. -/
inductive Reachable (init : SemState) : SemState → Prop where
  | refl : Reachable init init
  | step {s s' : SemState} : Reachable init s → SemStep s s' → Reachable init s'

/-! ### Helper lemmas -/

/-- Updating one position of a list shifts `countP` by the difference between
the old and new elements' contribution. -/
lemma countP_set_aux {α : Type} (p : α → Bool) :
    ∀ (l : List α) (i : Nat) (b a : α), l.get? i = some b →
      (l.set i a).countP p + (if p b then 1 else 0)
        = l.countP p + (if p a then 1 else 0) := by
  intro l
  induction l with
  | nil => intro i b a h; simp at h
  | cons x xs ih =>
    intro i b a h
    cases i with
    | zero =>
      simp only [List.get?] at h
      cases h
      simp only [List.set, List.countP_cons]
      omega
    | succ j =>
      simp only [List.get?] at h
      have := ih j b a h
      simp only [List.set, List.countP_cons]
      omega

/-- No task of the initial state holds a slot. -/
lemma countActive_initState (mc n : Nat) :
    (initState mc n).countActive = 0 := by
  induction n with
  | zero => rfl
  | succ m ih =>
    simp [initState, SemState.countActive, List.replicate_succ,
      List.countP_cons, Phase.isActive] at *

/-- The semaphore invariant: in every reachable state, the tasks holding a
slot and the remaining capacity add up to the initial capacity. -/
lemma reachable_active_add_avail (mc n : Nat) (s : SemState)
    (h : Reachable (initState mc n) s) :
    s.countActive + s.avail = mc := by
  induction h with
  | refl =>
    rw [show (initState mc n).countActive = 0 from countActive_initState mc n]
    simp [initState]
  | step _ hstep ih =>
    cases hstep with
    | acquire phases avail i hget ha =>
      have hc := countP_set_aux (·.isActive) phases i Phase.waiting (Phase.active 0) hget
      simp [SemState.countActive, Phase.isActive] at *
      omega
    | work phases avail i k hget =>
      have hc := countP_set_aux (·.isActive) phases i (Phase.active k)
        (Phase.active (k + 1)) hget
      simp [SemState.countActive, Phase.isActive] at *
      omega
    | release phases avail i k hget =>
      have hc := countP_set_aux (·.isActive) phases i (Phase.active k) Phase.finished hget
      simp [SemState.countActive, Phase.isActive] at *
      omega

/-! ### Claims -/

/-- C1.  For every run of `download_tickers`, at no instant are more than
`max_concurrent` fetch attempts (including their backoff sleeps) concurrently
active: each per-ticker task acquires one slot of the single shared semaphore
of capacity `max_concurrent` before its first attempt (`SemStep.acquire`),
performs every attempt and backoff sleep while holding it (`SemStep.work`),
and releases it only on final success or exhaustion (`SemStep.release`); in
every reachable state the number of slot-holding tasks is at most
`max_concurrent`. -/
theorem semaphore_bounds_concurrency (self : ParallelDownloader) (n : Nat)
    (s : SemState) (h : Reachable (initState self.max_concurrent.toNat n) s) :
    s.countActive ≤ self.max_concurrent.toNat := by
  have := reachable_active_add_avail self.max_concurrent.toNat n s h
  omega

/-- Witness for C1: with capacity 2 and three tickers, the state after one
acquisition is reachable and satisfies the bound. -/
theorem semaphore_bounds_concurrency_witness :
    SemState.countActive ⟨[Phase.active 0, Phase.waiting, Phase.waiting], 1⟩
      ≤ (ParallelDownloader.max_concurrent ⟨2, 3, 1, 30⟩).toNat :=
  semaphore_bounds_concurrency ⟨2, 3, 1, 30⟩ 3
    ⟨[Phase.active 0, Phase.waiting, Phase.waiting], 1⟩
    (Reachable.step Reachable.refl
      (SemStep.acquire [Phase.waiting, Phase.waiting, Phase.waiting] 2 0 rfl
        (by decide)))

/-- The sequential await-and-append loop of `download_tickers` appends each
ticker, in input order, to the list selected by its outcome. -/
lemma download_foldl_spec (self : ParallelDownloader) (sd ed ofmt : String)
    (period : Option String) (auto : Bool) (fetch : FetchOracle) (write : WriteOracle) :
    ∀ (l s f : List String),
      l.foldl (fun (acc : List String × List String) (ticker : String) =>
          if self.tickerSucceeds sd ed ofmt period auto fetch write ticker then
            (acc.1 ++ [ticker], acc.2)
          else
            (acc.1, acc.2 ++ [ticker])) (s, f)
        = (s ++ l.filter (self.tickerSucceeds sd ed ofmt period auto fetch write),
           f ++ l.filter (fun t =>
             !(self.tickerSucceeds sd ed ofmt period auto fetch write t))) := by
  intro l
  induction l with
  | nil => intro s f; simp
  | cons x xs ih =>
    intro s f
    by_cases hx : self.tickerSucceeds sd ed ofmt period auto fetch write x
    · simp [List.foldl_cons, hx, ih, List.filter_cons]
    · simp [List.foldl_cons, hx, ih, List.filter_cons]

/-- Closed form of the report returned by `download_tickers`: both ticker
lists are input-order sublists of the input, selected by the per-ticker
outcome. -/
lemma download_tickers_eq (self : ParallelDownloader) (tickers : List String)
    (sd ed od ofmt : String) (period : Option String) (auto : Bool)
    (fetch : FetchOracle) (write : WriteOracle) :
    self.download_tickers tickers sd ed od ofmt period auto fetch write =
      { total := tickers.length
        successful :=
          (tickers.filter (self.tickerSucceeds sd ed ofmt period auto fetch write)).length
        failed :=
          (tickers.filter (fun t =>
            !(self.tickerSucceeds sd ed ofmt period auto fetch write t))).length
        successful_tickers :=
          tickers.filter (self.tickerSucceeds sd ed ofmt period auto fetch write)
        failed_tickers :=
          tickers.filter (fun t =>
            !(self.tickerSucceeds sd ed ofmt period auto fetch write t)) } := by
  unfold ParallelDownloader.download_tickers
  dsimp only
  rw [download_foldl_spec self sd ed ofmt period auto fetch write tickers [] []]
  simp

/-- The two outcome sublists partition the input's length. -/
lemma length_filter_partition {α : Type} (p : α → Bool) (l : List α) :
    (l.filter p).length + (l.filter (fun x => !(p x))).length = l.length := by
  induction l with
  | nil => rfl
  | cons x xs ih =>
    by_cases hx : p x
    · simp [List.filter_cons, hx]; omega
    · simp [List.filter_cons, hx]; omega

/-- The two outcome sublists partition the occurrence count of every element. -/
lemma count_filter_partition (p : String → Bool) (t : String) (l : List String) :
    (l.filter p).count t + (l.filter (fun x => !(p x))).count t = l.count t := by
  cases hx : p t with
  | true =>
    rw [List.count_filter hx]
    have h0 : (l.filter (fun x => !(p x))).count t = 0 := by
      rw [List.count_eq_zero]
      intro hmem
      have := (List.mem_filter.mp hmem).2
      simp [hx] at this
    omega
  | false =>
    have h2 : (l.filter (fun x => !(p x))).count t = l.count t :=
      List.count_filter (by simp [hx])
    have h0 : (l.filter p).count t = 0 := by
      rw [List.count_eq_zero]
      intro hmem
      have := (List.mem_filter.mp hmem).2
      simp [hx] at this
    omega

/-- C2.  For every non-empty input ticker list, the report satisfies
`successful + failed = total` with `total` the input length, and every input
ticker is appended to exactly one of the two lists: for each string, its
occurrences in `successful_tickers` and `failed_tickers` add up to its
occurrences in the input (no omissions, no extra duplicates). -/
theorem report_partitions_input (self : ParallelDownloader) (tickers : List String)
    (sd ed od ofmt : String) (period : Option String) (auto : Bool)
    (fetch : FetchOracle) (write : WriteOracle) (_hne : tickers ≠ []) :
    let r := self.download_tickers tickers sd ed od ofmt period auto fetch write
    r.successful + r.failed = r.total ∧ r.total = tickers.length ∧
    ∀ t, r.successful_tickers.count t + r.failed_tickers.count t = tickers.count t := by
  rw [download_tickers_eq]
  refine ⟨length_filter_partition _ tickers, rfl, fun t => count_filter_partition _ t tickers⟩

/-- Witness for C2 on a concrete two-ticker run in which one ticker fails. -/
theorem report_partitions_input_witness :
    let r := ParallelDownloader.download_tickers ⟨2, 3, 1, 30⟩ ["AAPL", "MSFT"]
      "2023-01-01" "2023-06-01" "out" "csv" none true
      (fun sym _ => if sym = "AAPL" then .table ⟨[⟨2023, 1, 3, 1, 2, 1, 3, 100, 0, 0⟩]⟩
                    else .error "boom")
      (fun _ _ => .ok ())
    r.successful + r.failed = r.total ∧ r.total = (["AAPL", "MSFT"] : List String).length ∧
    ∀ t, r.successful_tickers.count t + r.failed_tickers.count t
      = (["AAPL", "MSFT"] : List String).count t :=
  report_partitions_input ⟨2, 3, 1, 30⟩ ["AAPL", "MSFT"] "2023-01-01" "2023-06-01"
    "out" "csv" none true
    (fun sym _ => if sym = "AAPL" then .table ⟨[⟨2023, 1, 3, 1, 2, 1, 3, 100, 0, 0⟩]⟩
                  else .error "boom")
    (fun _ _ => .ok ()) (by decide)

/-- C10.  An empty ticker list is not an error: `download_tickers` returns the
all-zero report with empty ticker lists. -/
theorem empty_input_returns_zero_report (self : ParallelDownloader)
    (sd ed od ofmt : String) (period : Option String) (auto : Bool)
    (fetch : FetchOracle) (write : WriteOracle) :
    self.download_tickers [] sd ed od ofmt period auto fetch write
      = { total := 0, successful := 0, failed := 0,
          successful_tickers := [], failed_tickers := [] } := rfl

/-- C6 (counterexample).  The claim asserts the report lists follow completion
order rather than input order, and that the two differ for some latency
assignment.  In this run, ticker "AAA" needs three fetch attempts with two
backoff sleeps while "BBB" succeeds on its first attempt — under any
completion-order semantics "BBB" finishes first — yet the report lists
"AAA" first: the loop awaits the tasks sequentially in input order. -/
theorem report_order_counterexample :
    (ParallelDownloader.download_ticker ⟨2, 3, 1, 30⟩ "AAA" "2023-01-01" "2023-06-01"
        none true
        (fun sym i => if sym = "AAA" && i < 2 then .error "timeout"
                      else .table ⟨[⟨2023, 1, 3, 1, 2, 1, 3, 100, 0, 0⟩]⟩)).attempts = 3 ∧
    (ParallelDownloader.download_ticker ⟨2, 3, 1, 30⟩ "BBB" "2023-01-01" "2023-06-01"
        none true
        (fun sym i => if sym = "AAA" && i < 2 then .error "timeout"
                      else .table ⟨[⟨2023, 1, 3, 1, 2, 1, 3, 100, 0, 0⟩]⟩)).attempts = 1 ∧
    (ParallelDownloader.download_tickers ⟨2, 3, 1, 30⟩ ["AAA", "BBB"] "2023-01-01"
        "2023-06-01" "out" "csv" none true
        (fun sym i => if sym = "AAA" && i < 2 then .error "timeout"
                      else .table ⟨[⟨2023, 1, 3, 1, 2, 1, 3, 100, 0, 0⟩]⟩)
        (fun _ _ => .ok ())).successful_tickers = ["AAA", "BBB"] ∧
    (["AAA", "BBB"] : List String) ≠ ["BBB", "AAA"] := by
  refine ⟨rfl, rfl, by decide, by decide⟩

/-- C6 (amended).  The ordering of `successful_tickers` and `failed_tickers`
follows the input order of the ticker list, for every fetch/write oracle (in
particular for every latency or retry-count assignment): each list is exactly
the input-order sublist of the input with that outcome. -/
theorem report_order_is_input_order (self : ParallelDownloader)
    (tickers : List String) (sd ed od ofmt : String) (period : Option String)
    (auto : Bool) (fetch : FetchOracle) (write : WriteOracle) :
    (self.download_tickers tickers sd ed od ofmt period auto fetch write).successful_tickers
      = tickers.filter (self.tickerSucceeds sd ed ofmt period auto fetch write) ∧
    (self.download_tickers tickers sd ed od ofmt period auto fetch write).failed_tickers
      = tickers.filter (fun t =>
          !(self.tickerSucceeds sd ed ofmt period auto fetch write t)) := by
  rw [download_tickers_eq]
  exact ⟨rfl, rfl⟩

/-- C5 (counterexample).  Constructing the engine with `retry_attempts = 0`
(a non-positive parameter) does not fail: `__init__` performs no validation
and construction succeeds. -/
theorem init_no_validation_counterexample :
    ParallelDownloader.init 50 0 1 30
      = .ok { max_concurrent := 50, retry_attempts := 0, retry_delay := 1, timeout := 30 }
    ∧ ¬ ((0 : ℤ) > 0) := ⟨rfl, by decide⟩

/-- C5 (amended).  Construction performs no positivity validation: it fails
only when `max_concurrent` is negative (rejected by `asyncio.Semaphore`);
for every `max_concurrent ≥ 0` it succeeds, whatever the signs of
`retry_attempts`, `retry_delay` and `timeout`. -/
theorem init_succeeds_iff_nonneg_semaphore (mc ra : ℤ) (rd : ℚ) (t : ℤ) :
    (∃ d, ParallelDownloader.init mc ra rd t = .ok d) ↔ 0 ≤ mc := by
  unfold ParallelDownloader.init
  by_cases h : mc < 0
  · simp only [h, if_true]
    constructor
    · rintro ⟨d, hd⟩; cases hd
    · omega
  · simp only [h, if_false]
    constructor
    · intro; omega
    · intro; exact ⟨_, rfl⟩

/-- One-step unfolding of the retry loop on a non-empty index list. -/
lemma downloadAttempts_cons (d : ℚ) (sym : String) (fetch : FetchOracle)
    (attempt : Nat) (rest : List Nat) :
    downloadAttempts d sym fetch (attempt :: rest) =
      match fetch sym attempt with
      | .table data =>
        if data.rows.isEmpty then ⟨none, 1, []⟩
        else ⟨some (normalize sym data), 1, []⟩
      | .error _ =>
        if rest.isEmpty then ⟨none, 1, []⟩
        else
          let r := downloadAttempts d sym fetch rest
          ⟨r.result, r.attempts + 1, d * 2 ^ attempt :: r.sleeps⟩ := rfl

/-- When every attempt raises, the retry loop visits every remaining index,
returns `None`, and sleeps `retry_delay * 2 ^ j` after every attempt except
the last. -/
lemma downloadAttempts_all_errors (d : ℚ) (sym : String) (fetch : FetchOracle)
    (herr : ∀ i, (fetch sym i).isError = true) :
    ∀ (k i : Nat), 0 < k →
      downloadAttempts d sym fetch (List.range' i k) =
        ⟨none, k, (List.range' i (k - 1)).map (fun j => d * 2 ^ j)⟩ := by
  intro k
  induction k with
  | zero => intro i h; omega
  | succ m ih =>
    intro i _
    rw [List.range'_succ]
    cases m with
    | zero =>
      cases hfe : fetch sym i with
      | table data => have := herr i; rw [hfe] at this; simp [FetchResult.isError] at this
      | error msg => simp [downloadAttempts, hfe]
    | succ m' =>
      cases hfe : fetch sym i with
      | table data => have := herr i; rw [hfe] at this; simp [FetchResult.isError] at this
      | error msg =>
        have hne : (List.range' (i + 1) (m' + 1)).isEmpty = false := by
          rw [List.range'_succ]; rfl
        have hrec := ih (i + 1) (Nat.succ_pos m')
        rw [downloadAttempts_cons, hfe]
        simp only [hne, Bool.false_eq_true, if_false]
        rw [hrec]
        rw [show List.range' i (m' + 1 + 1 - 1) = i :: List.range' (i + 1) m' from
          List.range'_succ i m' 1]
        simp

/-- C3.  For every ticker whose every fetch attempt raises, `download_ticker`
makes exactly `retry_attempts` attempts (the first included), returns `None`
(so `download_tickers` records the ticker as failed), and the backoff sleeps,
in order, are `retry_delay * 2 ^ i` for `i = 0, …, retry_attempts - 2` — i.e.
exactly `retry_delay * 2 ^ i` between attempt `i` and attempt `i + 1`. -/
theorem all_errors_retry_schedule (self : ParallelDownloader) (ticker : String)
    (sd ed : String) (period : Option String) (auto : Bool) (fetch : FetchOracle)
    (herr : ∀ i, (fetch (symbolOf ticker) i).isError = true)
    (hpos : 0 < self.retry_attempts) :
    (self.download_ticker ticker sd ed period auto fetch).result = none ∧
    (self.download_ticker ticker sd ed period auto fetch).attempts
      = self.retry_attempts.toNat ∧
    (self.download_ticker ticker sd ed period auto fetch).sleeps
      = (List.range (self.retry_attempts.toNat - 1)).map
          (fun i => self.retry_delay * 2 ^ i) := by
  have hk : 0 < self.retry_attempts.toNat := by omega
  unfold ParallelDownloader.download_ticker
  rw [List.range_eq_range', downloadAttempts_all_errors self.retry_delay
    (symbolOf ticker) fetch herr self.retry_attempts.toNat 0 hk,
    List.range_eq_range']
  exact ⟨rfl, rfl, rfl⟩

/-- Witness for C3: three configured attempts against an always-raising
fetch give three attempts, two sleeps (1×, 2× the base delay), and `None`. -/
theorem all_errors_retry_schedule_witness :
    (ParallelDownloader.download_ticker ⟨2, 3, 1, 30⟩ "AAPL" "2023-01-01" "2023-06-01"
        none true (fun _ _ => .error "boom")).result = none ∧
    (ParallelDownloader.download_ticker ⟨2, 3, 1, 30⟩ "AAPL" "2023-01-01" "2023-06-01"
        none true (fun _ _ => .error "boom")).attempts
      = (ParallelDownloader.retry_attempts ⟨2, 3, 1, 30⟩).toNat ∧
    (ParallelDownloader.download_ticker ⟨2, 3, 1, 30⟩ "AAPL" "2023-01-01" "2023-06-01"
        none true (fun _ _ => .error "boom")).sleeps
      = (List.range ((ParallelDownloader.retry_attempts ⟨2, 3, 1, 30⟩).toNat - 1)).map
          (fun i => ParallelDownloader.retry_delay ⟨2, 3, 1, 30⟩ * 2 ^ i) :=
  all_errors_retry_schedule ⟨2, 3, 1, 30⟩ "AAPL" "2023-01-01" "2023-06-01" none true
    (fun _ _ => .error "boom") (fun _ => rfl) (by decide)

/-- C4.  When the first fetch attempt succeeds but returns an empty table,
the retry loop exits immediately: exactly one attempt, no sleeps, result
`None` (a failure outcome), regardless of the remaining attempt budget. -/
theorem empty_table_no_retry (self : ParallelDownloader) (ticker : String)
    (sd ed : String) (period : Option String) (auto : Bool) (fetch : FetchOracle)
    (data : RawTable) (hpos : 0 < self.retry_attempts)
    (hfetch : fetch (symbolOf ticker) 0 = .table data) (hempty : data.rows = []) :
    self.download_ticker ticker sd ed period auto fetch
      = { result := none, attempts := 1, sleeps := [] } := by
  obtain ⟨m, hm⟩ : ∃ m, self.retry_attempts.toNat = m + 1 := by
    refine ⟨self.retry_attempts.toNat - 1, by omega⟩
  unfold ParallelDownloader.download_ticker
  rw [List.range_eq_range', hm, List.range'_succ]
  simp [downloadAttempts, hfetch, hempty]

/-- Witness for C4: a fetch returning an empty table on the first call fails
after one attempt with no backoff. -/
theorem empty_table_no_retry_witness :
    ParallelDownloader.download_ticker ⟨2, 3, 1, 30⟩ "AAPL" "2023-01-01" "2023-06-01"
        none true (fun _ _ => .table ⟨[]⟩)
      = { result := none, attempts := 1, sleeps := [] } :=
  empty_table_no_retry ⟨2, 3, 1, 30⟩ "AAPL" "2023-01-01" "2023-06-01" none true
    (fun _ _ => .table ⟨[]⟩) ⟨[]⟩ (by decide) rfl rfl

/-- Any file name handed to the writer by the per-ticker block is exactly
`mkFilename` of the ticker's file-name symbol. -/
lemma processTicker_filename (self : ParallelDownloader) (sd ed ofmt : String)
    (period : Option String) (auto : Bool) (fetch : FetchOracle)
    (write : WriteOracle) (t fname : String)
    (h : (self.processTicker sd ed ofmt period auto fetch write t).2 = some fname) :
    fname = mkFilename (filenameSymbol t) sd ed period auto ofmt := by
  unfold ParallelDownloader.processTicker at h
  dsimp only at h
  cases hres : (self.download_ticker t sd ed period auto fetch).result with
  | none => rw [hres] at h; simp at h
  | some data =>
    rw [hres] at h
    by_cases hrows : data.rows.isEmpty
    · simp [hrows] at h
    · by_cases hfmt : (decide (ofmt = "csv") || decide (ofmt = "parquet")
          || decide (ofmt = "json")) = true
      · cases hw : write (mkFilename (filenameSymbol t) sd ed period auto ofmt) data with
        | ok u => simp [hrows, hfmt, hw] at h; exact h.symm
        | error e => simp [hrows, hfmt, hw] at h; exact h.symm
      · simp [hrows, hfmt] at h

/-- Every row of a table returned by the retry loop carries the stripped
ticker symbol in its `ticker` column. -/
lemma downloadAttempts_result_rows (d : ℚ) (sym : String) (fetch : FetchOracle) :
    ∀ (l : List Nat) (tb : Table),
      (downloadAttempts d sym fetch l).result = some tb →
      ∀ row ∈ tb.rows, row.ticker = sym := by
  intro l
  induction l with
  | nil => intro tb h; simp [downloadAttempts] at h
  | cons a rest ih =>
    intro tb h
    rw [downloadAttempts_cons] at h
    cases hfe : fetch sym a with
    | table data =>
      rw [hfe] at h
      by_cases hrows : data.rows.isEmpty
      · simp [hrows] at h
      · simp [hrows] at h
        intro row hrow
        rw [← h] at hrow
        simp only [normalize] at hrow
        obtain ⟨raw, _, hmap⟩ := List.mem_map.mp hrow
        rw [← hmap]
        rfl
    | error msg =>
      rw [hfe] at h
      by_cases hrest : rest.isEmpty
      · simp [hrest] at h
      · simp only [hrest, Bool.false_eq_true, if_false] at h
        exact ih tb h

/-- C7.  `download_tickers` never raises for per-ticker failures (it is a
total function into `Report`, since the per-ticker `try/except` catches every
exception): when the fetch for a ticker `t` succeeds but the writer raises,
`t` is recorded in `failed_tickers` without any re-fetch (the fetch result is
consumed once; the writer is not retried), and all other tickers — before and
after `t` — are still processed normally. -/
theorem writer_failure_demotes_without_abort (self : ParallelDownloader)
    (sd ed od ofmt : String) (period : Option String) (auto : Bool)
    (fetch : FetchOracle) (write : WriteOracle) (pre post : List String)
    (t : String) (data : Table) (e : String)
    (hfmt : ofmt = "csv" ∨ ofmt = "parquet" ∨ ofmt = "json")
    (hfetch : (self.download_ticker t sd ed period auto fetch).result = some data)
    (hwrite : write (mkFilename (filenameSymbol t) sd ed period auto ofmt) data
      = .error e) :
    t ∈ (self.download_tickers (pre ++ t :: post) sd ed od ofmt period auto
          fetch write).failed_tickers ∧
    (self.download_tickers (pre ++ t :: post) sd ed od ofmt period auto
          fetch write).successful_tickers
      = pre.filter (self.tickerSucceeds sd ed ofmt period auto fetch write)
        ++ post.filter (self.tickerSucceeds sd ed ofmt period auto fetch write) ∧
    (self.download_tickers (pre ++ t :: post) sd ed od ofmt period auto
          fetch write).total = pre.length + 1 + post.length := by
  have hp : self.tickerSucceeds sd ed ofmt period auto fetch write t = false := by
    unfold ParallelDownloader.tickerSucceeds ParallelDownloader.processTicker
    dsimp only
    rw [hfetch]
    by_cases hrows : data.rows.isEmpty
    · simp [hrows]
    · have hfmt' : (decide (ofmt = "csv") || decide (ofmt = "parquet")
          || decide (ofmt = "json")) = true := by
        rcases hfmt with h | h | h <;> simp [h]
      simp [hrows, hfmt', hwrite]
  rw [download_tickers_eq]
  refine ⟨?_, ?_, ?_⟩
  · apply List.mem_filter.mpr
    exact ⟨by simp, by simp [hp]⟩
  · simp [List.filter_append, List.filter_cons, hp]
  · simp; omega

/-- Witness for C7: with a writer that always raises, the middle ticker of a
three-ticker run (whose fetch succeeds) lands in `failed_tickers` and the
whole input is still tallied. -/
theorem writer_failure_demotes_without_abort_witness :
    "T" ∈ (ParallelDownloader.download_tickers ⟨2, 3, 1, 30⟩ (["X"] ++ "T" :: ["Y"])
          "2023-01-01" "2023-06-01" "out" "csv" none true
          (fun _ _ => .table ⟨[⟨2023, 1, 3, 1, 2, 1, 3, 100, 0, 0⟩]⟩)
          (fun _ _ => .error "IOError")).failed_tickers ∧
    (ParallelDownloader.download_tickers ⟨2, 3, 1, 30⟩ (["X"] ++ "T" :: ["Y"])
          "2023-01-01" "2023-06-01" "out" "csv" none true
          (fun _ _ => .table ⟨[⟨2023, 1, 3, 1, 2, 1, 3, 100, 0, 0⟩]⟩)
          (fun _ _ => .error "IOError")).successful_tickers
      = (["X"] : List String).filter
          (ParallelDownloader.tickerSucceeds ⟨2, 3, 1, 30⟩ "2023-01-01" "2023-06-01"
            "csv" none true
            (fun _ _ => .table ⟨[⟨2023, 1, 3, 1, 2, 1, 3, 100, 0, 0⟩]⟩)
            (fun _ _ => .error "IOError"))
        ++ (["Y"] : List String).filter
          (ParallelDownloader.tickerSucceeds ⟨2, 3, 1, 30⟩ "2023-01-01" "2023-06-01"
            "csv" none true
            (fun _ _ => .table ⟨[⟨2023, 1, 3, 1, 2, 1, 3, 100, 0, 0⟩]⟩)
            (fun _ _ => .error "IOError")) ∧
    (ParallelDownloader.download_tickers ⟨2, 3, 1, 30⟩ (["X"] ++ "T" :: ["Y"])
          "2023-01-01" "2023-06-01" "out" "csv" none true
          (fun _ _ => .table ⟨[⟨2023, 1, 3, 1, 2, 1, 3, 100, 0, 0⟩]⟩)
          (fun _ _ => .error "IOError")).total
      = (["X"] : List String).length + 1 + (["Y"] : List String).length :=
  writer_failure_demotes_without_abort ⟨2, 3, 1, 30⟩ "2023-01-01" "2023-06-01"
    "out" "csv" none true
    (fun _ _ => .table ⟨[⟨2023, 1, 3, 1, 2, 1, 3, 100, 0, 0⟩]⟩)
    (fun _ _ => .error "IOError") ["X"] ["Y"] "T"
    (normalize "T" ⟨[⟨2023, 1, 3, 1, 2, 1, 3, 100, 0, 0⟩]⟩) "IOError"
    (Or.inl rfl) rfl rfl

/-- C8.  Every file name handed to the writer is exactly
`{symbol}_{period}_{adj|raw}.{ext}` when a (truthy) named period is supplied
and `{symbol}_{startDate}_{endDate}_{adj|raw}.{ext}` otherwise, with suffix
`adj` iff auto-adjust is enabled; in particular ticker `AAPL`, range
2023-01-01..2023-06-01, adjusted, csv yields exactly
`AAPL_2023-01-01_2023-06-01_adj.csv`. -/
theorem output_filename_format :
    (∀ (self : ParallelDownloader) (sd ed ofmt : String) (period : Option String)
        (auto : Bool) (fetch : FetchOracle) (write : WriteOracle) (t fname : String),
        (self.processTicker sd ed ofmt period auto fetch write t).2 = some fname →
        fname = mkFilename (filenameSymbol t) sd ed period auto ofmt) ∧
    (∀ (sym sd ed ofmt p : String) (auto : Bool), p ≠ "" →
        mkFilename sym sd ed (some p) auto ofmt
          = sym ++ "_" ++ p ++ "_" ++ (if auto then "adj" else "raw") ++ "." ++ ofmt) ∧
    (∀ (sym sd ed ofmt : String) (auto : Bool),
        mkFilename sym sd ed none auto ofmt
          = sym ++ "_" ++ sd ++ "_" ++ ed ++ "_" ++ (if auto then "adj" else "raw")
            ++ "." ++ ofmt) ∧
    mkFilename "AAPL" "2023-01-01" "2023-06-01" none true "csv"
      = "AAPL_2023-01-01_2023-06-01_adj.csv" := by
  refine ⟨?_, ?_, ?_, rfl⟩
  · intro self sd ed ofmt period auto fetch write t fname h
    exact processTicker_filename self sd ed ofmt period auto fetch write t fname h
  · intro sym sd ed ofmt p auto hp
    unfold mkFilename periodTruthy
    simp [hp]
  · intro sym sd ed ofmt auto
    rfl

/-- Witness for C8: a successful csv run for `AAPL` hands the writer exactly
`AAPL_2023-01-01_2023-06-01_adj.csv`, and the period form yields
`AAPL_1y_raw.json`. -/
theorem output_filename_format_witness :
    ("AAPL_2023-01-01_2023-06-01_adj.csv" : String)
      = mkFilename (filenameSymbol "AAPL") "2023-01-01" "2023-06-01" none true "csv" ∧
    mkFilename "AAPL" "2023-01-01" "2023-06-01" (some "1y") false "json"
      = "AAPL" ++ "_" ++ "1y" ++ "_" ++ (if false then "adj" else "raw") ++ "." ++ "json" :=
  ⟨output_filename_format.1 ⟨2, 3, 1, 30⟩ "2023-01-01" "2023-06-01" "csv" none true
      (fun _ _ => .table ⟨[⟨2023, 1, 3, 1, 2, 1, 3, 100, 0, 0⟩]⟩) (fun _ _ => .ok ())
      "AAPL" "AAPL_2023-01-01_2023-06-01_adj.csv" rfl,
   output_filename_format.2.1 "AAPL" "2023-01-01" "2023-06-01" "json" "1y" false
      (by decide)⟩

/-- C9.  For every input entry containing a comma (`"SYMBOL,Name"` form), the
report lists contain the original input string verbatim (comma and display
name included); the output file name is built from the stripped symbol part
before the comma; and every row of the normalised table carries the stripped
symbol in its `ticker` column. -/
theorem comma_entries_symbol_vs_verbatim (self : ParallelDownloader)
    (tickers : List String) (sd ed od ofmt : String) (period : Option String)
    (auto : Bool) (fetch : FetchOracle) (write : WriteOracle) (ticker : String)
    (hmem : ticker ∈ tickers) (hcomma : ticker.data.contains ',' = true) :
    (ticker ∈ (self.download_tickers tickers sd ed od ofmt period auto fetch
          write).successful_tickers
      ∨ ticker ∈ (self.download_tickers tickers sd ed od ofmt period auto fetch
          write).failed_tickers) ∧
    (∀ fname, (self.processTicker sd ed ofmt period auto fetch write ticker).2
        = some fname →
        fname = mkFilename (symbolOf ticker) sd ed period auto ofmt) ∧
    (∀ data, (self.download_ticker ticker sd ed period auto fetch).result
        = some data →
        ∀ row ∈ data.rows, row.ticker = symbolOf ticker) := by
  have hsym : filenameSymbol ticker = symbolOf ticker := by
    unfold filenameSymbol
    rw [hcomma]
    rfl
  refine ⟨?_, ?_, ?_⟩
  · rw [download_tickers_eq]
    by_cases hp : self.tickerSucceeds sd ed ofmt period auto fetch write ticker
    · exact Or.inl (List.mem_filter.mpr ⟨hmem, hp⟩)
    · exact Or.inr (List.mem_filter.mpr ⟨hmem, by simp [hp]⟩)
  · intro fname h
    rw [← hsym]
    exact processTicker_filename self sd ed ofmt period auto fetch write ticker fname h
  · intro data h
    unfold ParallelDownloader.download_ticker at h
    exact downloadAttempts_result_rows self.retry_delay (symbolOf ticker) fetch
      (List.range self.retry_attempts.toNat) data h

/-- Witness for C9: the entry `"AAPL, Apple Inc"` appears verbatim in one of
the report lists of a singleton run. -/
theorem comma_entries_symbol_vs_verbatim_witness :
    ("AAPL, Apple Inc" ∈ (ParallelDownloader.download_tickers ⟨2, 3, 1, 30⟩
          ["AAPL, Apple Inc"] "2023-01-01" "2023-06-01" "out" "csv" none true
          (fun _ _ => .table ⟨[⟨2023, 1, 3, 1, 2, 1, 3, 100, 0, 0⟩]⟩)
          (fun _ _ => .ok ())).successful_tickers
      ∨ "AAPL, Apple Inc" ∈ (ParallelDownloader.download_tickers ⟨2, 3, 1, 30⟩
          ["AAPL, Apple Inc"] "2023-01-01" "2023-06-01" "out" "csv" none true
          (fun _ _ => .table ⟨[⟨2023, 1, 3, 1, 2, 1, 3, 100, 0, 0⟩]⟩)
          (fun _ _ => .ok ())).failed_tickers) ∧
    (∀ fname, (ParallelDownloader.processTicker ⟨2, 3, 1, 30⟩ "2023-01-01"
          "2023-06-01" "csv" none true
          (fun _ _ => .table ⟨[⟨2023, 1, 3, 1, 2, 1, 3, 100, 0, 0⟩]⟩)
          (fun _ _ => .ok ()) "AAPL, Apple Inc").2 = some fname →
        fname = mkFilename (symbolOf "AAPL, Apple Inc") "2023-01-01" "2023-06-01"
          none true "csv") ∧
    (∀ data, (ParallelDownloader.download_ticker ⟨2, 3, 1, 30⟩ "AAPL, Apple Inc"
          "2023-01-01" "2023-06-01" none true
          (fun _ _ => .table ⟨[⟨2023, 1, 3, 1, 2, 1, 3, 100, 0, 0⟩]⟩)).result
        = some data →
        ∀ row ∈ data.rows, row.ticker = symbolOf "AAPL, Apple Inc") :=
  comma_entries_symbol_vs_verbatim ⟨2, 3, 1, 30⟩ ["AAPL, Apple Inc"] "2023-01-01"
    "2023-06-01" "out" "csv" none true
    (fun _ _ => .table ⟨[⟨2023, 1, 3, 1, 2, 1, 3, 100, 0, 0⟩]⟩)
    (fun _ _ => .ok ()) "AAPL, Apple Inc" (by decide) (by decide)

end YFDownloader
